import Mathlib

/-!
Shallow embedding of the `go-pkgz/testutils` stream-capture and HTTP
request-captor code (`capture.go`, `http_utils.go`), with theorems that
settle the specification claims about it.

Bytes are modelled as natural numbers (arbitrary values, including 0 and
values above 127), byte strings as `List Nat`.
-/

namespace Testutils

/-- Destination of a process-wide stream variable (`os.Stdout` / `os.Stderr`):
either its pre-capture destination or the write end of a capture pipe. -/
inductive Dest where
  | original
  | pipeEnd
deriving DecidableEq, Repr

/-- Process-wide state touched by `capture.go`: the two stream variables,
the byte contents of the capture pipe currently attached to each stream (bytes
written but not yet drained), and the bytes that reached the original
destinations. -/
structure World where
  stdoutDest : Dest
  stderrDest : Dest
  stdoutPipe : List Nat
  stderrPipe : List Nat
  realOut : List Nat
  realErr : List Nat
deriving DecidableEq, Repr

/-- The caller-supplied function `f`: the sequence of chunks it writes to the
captured stream, and whether it ends by raising a runtime panic. -/
structure Action where
  writes : List (List Nat)
  panics : Bool
deriving DecidableEq, Repr

/-- Result of a single-stream capture call: the returned string, or the two
non-returning exits (`t.Fatal` on pipe-creation failure; a panic of `f`
propagating to the caller). -/
inductive CapResult where
  | ok (captured : List Nat)
  | fatal
  | panicked
deriving DecidableEq, Repr

/-- Events of one capture call, in the order the code performs them. -/
inductive Ev where
  | savedOld
  | createdPipe
  | redirected
  | startedDrain
  | ranAction
  | closedWrite
  | waitedDrain
  | readBuffer
  | restored
  | fatalAborted
  | panicPropagated
deriving DecidableEq, BEq, Repr

/-- Position of the first occurrence of an event in a trace. -/
def idxIn : List Ev → Ev → Nat
  | [], _ => 0
  | x :: rest, e => if x = e then 0 else idxIn rest e + 1

/-- Outcome of a single-stream capture call: result, final process state, and
the event trace. -/
structure CapOut where
  res : CapResult
  world : World
  trace : List Ev
deriving DecidableEq, Repr

/-- One write to `os.Stdout`: the chunk goes to wherever the stream variable
currently points (`capture.go` redirects it to the pipe's write end). -/
def writeOut (w : World) (chunk : List Nat) : World :=
  match w.stdoutDest with
  | .original => { w with realOut := w.realOut ++ chunk }
  | .pipeEnd => { w with stdoutPipe := w.stdoutPipe ++ chunk }

/-- One write to `os.Stderr`. -/
def writeErr (w : World) (chunk : List Nat) : World :=
  match w.stderrDest with
  | .original => { w with realErr := w.realErr ++ chunk }
  | .pipeEnd => { w with stderrPipe := w.stderrPipe ++ chunk }

/-- Running the action `f` when it targets stdout: its writes happen in order. -/
def runActionOut (ws : List (List Nat)) (w : World) : World :=
  ws.foldl writeOut w

/-- Running the action `f` when it targets stderr. -/
def runActionErr (ws : List (List Nat)) (w : World) : World :=
  ws.foldl writeErr w

/-- The drain goroutine's `io.Copy(&buf, r)`: moves every byte of the pipe
into the accumulation buffer, first to last, until end-of-stream. -/
def ioCopy : List Nat → List Nat → List Nat
  | [], buf => buf
  | b :: rest, buf => ioCopy rest (buf ++ [b])

/-- `CaptureStdout` (capture.go lines 12-39). `pipeOk` is the outcome of
`os.Pipe()`. The code: save `old := os.Stdout`; create the pipe (`t.Fatal` on
failure); redirect `os.Stdout` to the write end with a deferred restore; start
the drain goroutine; run `f()`; close the write end; `wg.Wait()`; return
`buf.String()`; the deferred restore runs after the return value is built. If
`f` panics, the close/wait/read lines are skipped but the deferred restore
still runs before the panic propagates. -/
def CaptureStdout (pipeOk : Bool) (act : Action) (w : World) : CapOut :=
  let old := w.stdoutDest
  if pipeOk = false then
    { res := .fatal, world := w, trace := [.savedOld, .fatalAborted] }
  else
    let w1 : World := { w with stdoutDest := .pipeEnd, stdoutPipe := [] }
    let w2 := runActionOut act.writes w1
    if act.panics then
      { res := .panicked
        world := { w2 with stdoutDest := old }
        trace := [.savedOld, .createdPipe, .redirected, .startedDrain,
                  .ranAction, .restored, .panicPropagated] }
    else
      { res := .ok (ioCopy w2.stdoutPipe [])
        world := { w2 with stdoutDest := old }
        trace := [.savedOld, .createdPipe, .redirected, .startedDrain,
                  .ranAction, .closedWrite, .waitedDrain, .readBuffer, .restored] }

/-- `CaptureStderr` (capture.go lines 42-69), identical to `CaptureStdout`
but over `os.Stderr`. -/
def CaptureStderr (pipeOk : Bool) (act : Action) (w : World) : CapOut :=
  let old := w.stderrDest
  if pipeOk = false then
    { res := .fatal, world := w, trace := [.savedOld, .fatalAborted] }
  else
    let w1 : World := { w with stderrDest := .pipeEnd, stderrPipe := [] }
    let w2 := runActionErr act.writes w1
    if act.panics then
      { res := .panicked
        world := { w2 with stderrDest := old }
        trace := [.savedOld, .createdPipe, .redirected, .startedDrain,
                  .ranAction, .restored, .panicPropagated] }
    else
      { res := .ok (ioCopy w2.stderrPipe [])
        world := { w2 with stderrDest := old }
        trace := [.savedOld, .createdPipe, .redirected, .startedDrain,
                  .ranAction, .closedWrite, .waitedDrain, .readBuffer, .restored] }

/-- Stream selector for an action that writes to both streams. -/
inductive StreamSel where
  | out
  | err
deriving DecidableEq, Repr

/-- The caller-supplied function of `CaptureStdoutAndStderr`: a sequence of
targeted writes, plus whether it ends in a panic. -/
structure Action2 where
  writes : List (StreamSel × List Nat)
  panics : Bool
deriving DecidableEq, Repr

/-- One targeted write performed by the action of a dual capture. -/
def writeStream (w : World) (p : StreamSel × List Nat) : World :=
  match p.1 with
  | .out => writeOut w p.2
  | .err => writeErr w p.2

/-- Running the action of a dual capture: its writes happen in order. -/
def runAction2 (ws : List (StreamSel × List Nat)) (w : World) : World :=
  ws.foldl writeStream w

/-- The chunks an action sends to one particular stream, in order. -/
def chunksFor (s : StreamSel) (ws : List (StreamSel × List Nat)) : List (List Nat) :=
  ws.filterMap (fun p => if p.1 = s then some p.2 else none)

/-- Result of a dual capture: the returned (stdout, stderr) pair, or a
non-returning exit. -/
inductive CapResult2 where
  | ok (o e : List Nat)
  | fatal
  | panicked
deriving DecidableEq, Repr

/-- Outcome of a dual capture call: result, final process state, and the
event trace (one event per step the code performs; the two pipe creations,
the two drain starts and the two write-end closes each appear twice). -/
structure CapOut2 where
  res : CapResult2
  world : World
  trace : List Ev
deriving DecidableEq, Repr

/-- `CaptureStdoutAndStderr` (capture.go lines 72-117). Save both old
destinations; create two pipes (`t.Fatal` if either creation fails, before
any redirection); redirect both streams with a deferred restore of both;
start two independent drain goroutines; run `f()`; close both write ends;
`wg.Wait()` joins both drains; return the two buffers, after which the
deferred restore runs. If `f` panics, the close/wait/read lines are skipped
but the deferred restore of both streams still runs before the panic
propagates. -/
def CaptureStdoutAndStderr (pipeOutOk pipeErrOk : Bool) (act : Action2)
    (w : World) : CapOut2 :=
  let oldout := w.stdoutDest
  let olderr := w.stderrDest
  if pipeOutOk = false then
    { res := .fatal, world := w, trace := [.savedOld, .fatalAborted] }
  else if pipeErrOk = false then
    { res := .fatal, world := w, trace := [.savedOld, .createdPipe, .fatalAborted] }
  else
    let w1 : World := { w with stdoutDest := .pipeEnd, stderrDest := .pipeEnd,
                               stdoutPipe := [], stderrPipe := [] }
    let w2 := runAction2 act.writes w1
    if act.panics then
      { res := .panicked
        world := { w2 with stdoutDest := oldout, stderrDest := olderr }
        trace := [.savedOld, .createdPipe, .createdPipe, .redirected,
                  .startedDrain, .startedDrain, .ranAction, .restored,
                  .panicPropagated] }
    else
      { res := .ok (ioCopy w2.stdoutPipe []) (ioCopy w2.stderrPipe [])
        world := { w2 with stdoutDest := oldout, stderrDest := olderr }
        trace := [.savedOld, .createdPipe, .createdPipe, .redirected,
                  .startedDrain, .startedDrain, .ranAction, .closedWrite,
                  .closedWrite, .waitedDrain, .readBuffer, .restored] }

/-- Size bound of an OS pipe's internal buffer (Linux default: 64 KiB). -/
def pipeCapacity : Nat := 65536

/-- Deterministic interleaving model of the concurrent drain in
`CaptureStdout` (capture.go lines 27-37) with the bounded pipe made explicit:
while the action still has bytes to write (`remaining`), a write transfers at
most the pipe's free space into the pipe, and when the pipe is full the
producer blocks until the concurrently running drain goroutine empties the
pipe into the accumulation buffer (`buf`). When the action is done the write
end is closed and the drain moves the leftover pipe contents into the buffer.
Totality of this function is the no-deadlock property of the design. -/
def concDrain (remaining pipe buf : List Nat) : List Nat :=
  if remaining = [] then buf ++ pipe
  else if pipeCapacity ≤ pipe.length then
    concDrain remaining [] (buf ++ pipe)
  else
    concDrain (remaining.drop (pipeCapacity - pipe.length))
      (pipe ++ remaining.take (pipeCapacity - pipe.length)) buf
termination_by (remaining.length, pipe.length)
decreasing_by
  · apply Prod.Lex.right
    simp only [List.length_nil]
    simp only [pipeCapacity] at *
    omega
  · apply Prod.Lex.left
    have hpos : 0 < remaining.length := List.length_pos.mpr (by assumption)
    simp only [List.length_drop]
    simp only [pipeCapacity] at *
    omega

/-- `RequestRecord` (http_utils.go lines 31-36). `Body` is `none` when the
Go field holds a nil byte slice (request with nil body). Headers are a list
of key/value pairs. -/
structure RequestRecord where
  Method : String
  Path : String
  Headers : List (String × String)
  Body : Option (List Nat)
deriving DecidableEq, Repr

/-- The zero value of Go's `RequestRecord`: empty strings, nil header map,
nil body slice. -/
def RequestRecord.zero : RequestRecord :=
  { Method := "", Path := "", Headers := [], Body := none }

/-- An `io.ReadCloser` positioned inside a byte stream: reading consumes;
`remaining` is what a reader would still get. -/
structure BodyReader where
  data : List Nat
  pos : Nat
deriving DecidableEq, Repr

/-- The bytes still unread in a body stream. -/
def BodyReader.remaining (b : BodyReader) : List Nat := b.data.drop b.pos

/-- `io.ReadAll(r.Body)`: returns every remaining byte and leaves the reader
exhausted. -/
def readAllBody (b : BodyReader) : List Nat × BodyReader :=
  (b.remaining, { b with pos := b.data.length })

/-- An inbound `*http.Request` as seen by the captor handler: method,
`r.URL.Path`, headers, and the body stream (`none` models a nil `r.Body`). -/
structure Request where
  method : String
  urlPath : String
  header : List (String × String)
  body : Option BodyReader
deriving DecidableEq, Repr

/-- The handler closure built by `HTTPRequestCaptor` (http_utils.go lines
97-127), acting on the captor's record list. It builds a record from method,
path and a clone of the headers; if the body is non-nil it reads the whole
body, stores the bytes in the record, and replaces `r.Body` with a fresh
reader over those same bytes; it appends the record (`captor.add`); finally,
if a downstream handler was supplied (`nextPresent`), the request as modified
is forwarded to it. Returns the new record list and the forwarded request
(`none` when no downstream handler exists). -/
def captorServeHTTP (nextPresent : Bool) (requests : List RequestRecord)
    (r : Request) : List RequestRecord × Option Request :=
  let record : RequestRecord :=
    { Method := r.method, Path := r.urlPath, Headers := r.header, Body := none }
  match r.body with
  | none =>
    (requests ++ [record], if nextPresent then some r else none)
  | some br =>
    let bodyBytes := (readAllBody br).1
    let record2 := { record with Body := some bodyBytes }
    let r2 := { r with body := some { data := bodyBytes, pos := 0 } }
    (requests ++ [record2], if nextPresent then some r2 else none)

/-- `GetRequest` (http_utils.go lines 52-61) over the captor's record list,
with the index as a Go `int` (a signed integer). -/
def GetRequest (requests : List RequestRecord) (idx : Int) : RequestRecord × Bool :=
  if idx < 0 ∨ (requests.length : Int) ≤ idx then
    (RequestRecord.zero, false)
  else
    (requests.getD idx.toNat RequestRecord.zero, true)

/-- `Len` (http_utils.go lines 45-49). -/
def LenCaptor (requests : List RequestRecord) : Nat := requests.length

/-- A heap of backing arrays for Go slices of `RequestRecord`, used to make
slice aliasing observable. A slice value is an index into this heap. -/
structure SliceHeap where
  arrays : List (List RequestRecord)
deriving DecidableEq, Repr

/-- Reading the elements a slice refers to. -/
def readArr (h : SliceHeap) (a : Nat) : List RequestRecord :=
  h.arrays.getD a []

/-- In-place mutation through a slice: set element `i` of backing array `a`. -/
def writeArr (h : SliceHeap) (a i : Nat) (v : RequestRecord) : SliceHeap :=
  { arrays := h.arrays.set a ((h.arrays.getD a []).set i v) }

/-- `make([]RequestRecord, n)` plus `copy`: allocate a fresh backing array
holding the given elements and return its reference. -/
def allocArr (h : SliceHeap) (data : List RequestRecord) : SliceHeap × Nat :=
  ({ arrays := h.arrays ++ [data] }, h.arrays.length)

/-- The captor's `requests` field as a slice reference; `none` models the nil
slice that `Reset` assigns. -/
structure CaptorState where
  requests : Option Nat
deriving DecidableEq, Repr

/-- The elements of a possibly-nil slice. -/
def readSlice (h : SliceHeap) : Option Nat → List RequestRecord
  | none => []
  | some a => readArr h a

/-- `GetRequests` (http_utils.go lines 64-72): allocate a fresh array of the
same length, copy the captor's records into it, and return the new slice. -/
def GetRequests (h : SliceHeap) (c : CaptorState) : SliceHeap × Nat :=
  allocArr h (readSlice h c.requests)

/-- `Reset` (http_utils.go lines 75-79): `c.requests = nil`. -/
def ResetCaptor (_c : CaptorState) : CaptorState :=
  { requests := none }

/-- `Len` in the heap model. -/
def LenCaptorH (h : SliceHeap) (c : CaptorState) : Nat :=
  (readSlice h c.requests).length

lemma ioCopy_eq (l acc : List Nat) : ioCopy l acc = acc ++ l := by
  induction l generalizing acc with
  | nil => simp [ioCopy]
  | cons b rest ih => simp [ioCopy, ih]

lemma writeOut_pipe (w : World) (c : List Nat) (h : w.stdoutDest = Dest.pipeEnd) :
    writeOut w c = { w with stdoutPipe := w.stdoutPipe ++ c } := by
  cases w with
  | mk d1 d2 p1 p2 r1 r2 =>
    simp only at h
    subst h
    rfl

lemma writeErr_pipe (w : World) (c : List Nat) (h : w.stderrDest = Dest.pipeEnd) :
    writeErr w c = { w with stderrPipe := w.stderrPipe ++ c } := by
  cases w with
  | mk d1 d2 p1 p2 r1 r2 =>
    simp only at h
    subst h
    rfl

lemma runActionOut_pipe (ws : List (List Nat)) (w : World)
    (h : w.stdoutDest = Dest.pipeEnd) :
    runActionOut ws w = { w with stdoutPipe := w.stdoutPipe ++ ws.flatten } := by
  induction ws generalizing w with
  | nil => simp [runActionOut]
  | cons chunk rest ih =>
    simp only [runActionOut, List.foldl_cons]
    rw [writeOut_pipe w chunk h]
    have hstep := ih { w with stdoutPipe := w.stdoutPipe ++ chunk } (by simpa using h)
    simp only [runActionOut] at hstep
    rw [hstep]
    simp [List.append_assoc]

lemma runActionErr_pipe (ws : List (List Nat)) (w : World)
    (h : w.stderrDest = Dest.pipeEnd) :
    runActionErr ws w = { w with stderrPipe := w.stderrPipe ++ ws.flatten } := by
  induction ws generalizing w with
  | nil => simp [runActionErr]
  | cons chunk rest ih =>
    simp only [runActionErr, List.foldl_cons]
    rw [writeErr_pipe w chunk h]
    have hstep := ih { w with stderrPipe := w.stderrPipe ++ chunk } (by simpa using h)
    simp only [runActionErr] at hstep
    rw [hstep]
    simp [List.append_assoc]

lemma runAction2_pipes (ws : List (StreamSel × List Nat)) (w : World)
    (ho : w.stdoutDest = Dest.pipeEnd) (he : w.stderrDest = Dest.pipeEnd) :
    runAction2 ws w
      = { w with stdoutPipe := w.stdoutPipe ++ (chunksFor .out ws).flatten,
                 stderrPipe := w.stderrPipe ++ (chunksFor .err ws).flatten } := by
  induction ws generalizing w with
  | nil => simp [runAction2, chunksFor]
  | cons p rest ih =>
    obtain ⟨s, chunk⟩ := p
    cases s with
    | out =>
      simp only [runAction2, List.foldl_cons, writeStream]
      rw [writeOut_pipe w chunk ho]
      have hstep := ih { w with stdoutPipe := w.stdoutPipe ++ chunk }
        (by simpa using ho) (by simpa using he)
      simp only [runAction2] at hstep
      rw [hstep]
      simp [chunksFor, List.filterMap_cons, List.append_assoc]
    | err =>
      simp only [runAction2, List.foldl_cons, writeStream]
      rw [writeErr_pipe w chunk he]
      have hstep := ih { w with stderrPipe := w.stderrPipe ++ chunk }
        (by simpa using ho) (by simpa using he)
      simp only [runAction2] at hstep
      rw [hstep]
      simp [chunksFor, List.filterMap_cons, List.append_assoc]

lemma chunksFor_eq_nil (s t : StreamSel) (ws : List (StreamSel × List Nat))
    (hall : ∀ p ∈ ws, p.1 = t) (hne : s ≠ t) : chunksFor s ws = [] := by
  induction ws with
  | nil => simp [chunksFor]
  | cons p rest ih =>
    have hp : p.1 = t := hall p (by simp)
    have hrest : ∀ q ∈ rest, q.1 = t := fun q hq => hall q (by simp [hq])
    have hne2 : ¬ (p.1 = s) := by
      rw [hp]
      exact fun hts => hne hts.symm
    have hihr := ih hrest
    simp only [chunksFor] at hihr ⊢
    simp only [List.filterMap_cons, if_neg hne2]
    exact hihr

lemma concDrain_eq (remaining pipe buf : List Nat) :
    concDrain remaining pipe buf = buf ++ pipe ++ remaining := by
  induction remaining, pipe, buf using concDrain.induct with
  | case1 pipe buf => simp [concDrain]
  | case2 remaining pipe buf h1 h2 ih =>
    rw [concDrain]
    simp only [if_neg h1, if_pos h2]
    rw [ih]
    simp
  | case3 remaining pipe buf h1 h2 ih =>
    rw [concDrain]
    simp only [if_neg h1, if_neg h2]
    rw [ih]
    simp [List.append_assoc, List.take_append_drop]

lemma captureStdout_ok (ws : List (List Nat)) (w : World) :
    (CaptureStdout true { writes := ws, panics := false } w).res = .ok ws.flatten := by
  have hrun := runActionOut_pipe ws
    { w with stdoutDest := Dest.pipeEnd, stdoutPipe := [] } rfl
  simp [CaptureStdout, hrun, ioCopy_eq]

lemma captureStderr_ok (ws : List (List Nat)) (w : World) :
    (CaptureStderr true { writes := ws, panics := false } w).res = .ok ws.flatten := by
  have hrun := runActionErr_pipe ws
    { w with stderrDest := Dest.pipeEnd, stderrPipe := [] } rfl
  simp [CaptureStderr, hrun, ioCopy_eq]

lemma captureBoth_ok (ws : List (StreamSel × List Nat)) (w : World) :
    (CaptureStdoutAndStderr true true { writes := ws, panics := false } w).res
      = .ok (chunksFor StreamSel.out ws).flatten (chunksFor StreamSel.err ws).flatten := by
  have hrun := runAction2_pipes ws
    { w with stdoutDest := Dest.pipeEnd, stderrDest := Dest.pipeEnd,
             stdoutPipe := [], stderrPipe := [] } rfl rfl
  simp [CaptureStdoutAndStderr, hrun, ioCopy_eq]

/-- C1: for every action and every finite sequence of byte-string writes it
performs (arbitrary byte values, the empty sequence included), `CaptureStdout`
and `CaptureStderr` return exactly the concatenation of the writes in the
order written, with no transformation or truncation; an action that writes
nothing yields the empty string. -/
theorem captureSingle_returns_concatenation (ws : List (List Nat)) (w : World) :
    (CaptureStdout true { writes := ws, panics := false } w).res
      = CapResult.ok ws.flatten
    ∧ (CaptureStderr true { writes := ws, panics := false } w).res
      = CapResult.ok ws.flatten :=
  ⟨captureStdout_ok ws w, captureStderr_ok ws w⟩

/-- C2: with the bounded pipe modelled explicitly, a capture whose action
writes a 100000-byte payload followed by a newline terminates (the model is a
total function) and yields the full payload plus newline, of length 100001,
even though the payload exceeds the pipe capacity — possible only because the
drain runs concurrently with the writes. -/
theorem concDrain_largePayload_no_deadlock (c : Nat) :
    concDrain (List.replicate 100000 c ++ [10]) [] [] = List.replicate 100000 c ++ [10]
    ∧ (concDrain (List.replicate 100000 c ++ [10]) [] []).length = 100001
    ∧ pipeCapacity < 100001 := by
  refine ⟨?_, ?_, by norm_num [pipeCapacity]⟩
  · rw [concDrain_eq]
    simp only [List.nil_append]
  · rw [concDrain_eq]
    simp only [List.nil_append, List.length_append, List.length_replicate,
      List.length_cons, List.length_nil]

/-- C3: when the caller's action panics during a capture, the deferred
cleanup still restores the original stream destination before the panic
propagates to the caller (the `restored` event precedes `panicPropagated` in
the trace), for `CaptureStdout`, `CaptureStderr` and
`CaptureStdoutAndStderr`. -/
theorem capture_restores_on_panic (ws : List (List Nat))
    (ws2 : List (StreamSel × List Nat)) (w : World) :
    ((CaptureStdout true { writes := ws, panics := true } w).world.stdoutDest
        = w.stdoutDest
      ∧ (CaptureStdout true { writes := ws, panics := true } w).res
        = CapResult.panicked
      ∧ idxIn (CaptureStdout true { writes := ws, panics := true } w).trace
            Ev.restored
          < idxIn (CaptureStdout true { writes := ws, panics := true } w).trace
            Ev.panicPropagated)
    ∧ ((CaptureStderr true { writes := ws, panics := true } w).world.stderrDest
        = w.stderrDest
      ∧ (CaptureStderr true { writes := ws, panics := true } w).res
        = CapResult.panicked)
    ∧ ((CaptureStdoutAndStderr true true { writes := ws2, panics := true } w).world.stdoutDest
        = w.stdoutDest
      ∧ (CaptureStdoutAndStderr true true { writes := ws2, panics := true } w).world.stderrDest
        = w.stderrDest
      ∧ (CaptureStdoutAndStderr true true { writes := ws2, panics := true } w).res
        = CapResult2.panicked) :=
  ⟨⟨rfl, rfl, Nat.le.refl⟩, ⟨rfl, rfl⟩, ⟨rfl, rfl, rfl⟩⟩

/-- C4 counterexample: in `CaptureStdout`, the restoration of the original
stream destination does not happen between closing the write end and waiting
for the drain — at this concrete input the `restored` event comes after
`waitedDrain`, refuting the claimed close/restore/wait order. -/
theorem captureStdout_restore_not_before_wait :
    ¬ (idxIn (CaptureStdout true { writes := [[104, 105]], panics := false }
          { stdoutDest := Dest.original, stderrDest := Dest.original,
            stdoutPipe := [], stderrPipe := [], realOut := [], realErr := [] }).trace
          Ev.restored
        < idxIn (CaptureStdout true { writes := [[104, 105]], panics := false }
          { stdoutDest := Dest.original, stderrDest := Dest.original,
            stdoutPipe := [], stderrPipe := [], realOut := [], realErr := [] }).trace
          Ev.waitedDrain) := by
  decide

/-- C4 (amended): after the action returns normally, every capture call
(`CaptureStdout`, `CaptureStderr` and `CaptureStdoutAndStderr`) closes the
pipe write end(s), waits for the background drain(s) to observe end-of-stream
and finish accumulating, reads the accumulation buffer(s), and only then
restores the original stream destination(s) via its deferred cleanup; the
drain fully finishes before the buffer is read and no bytes are lost. -/
theorem capture_close_wait_read_restore (ws : List (List Nat))
    (ws2 : List (StreamSel × List Nat)) (w : World) :
    ((CaptureStdout true { writes := ws, panics := false } w).trace
      = [Ev.savedOld, Ev.createdPipe, Ev.redirected, Ev.startedDrain, Ev.ranAction,
         Ev.closedWrite, Ev.waitedDrain, Ev.readBuffer, Ev.restored]
    ∧ (CaptureStdout true { writes := ws, panics := false } w).res
      = CapResult.ok ws.flatten)
    ∧ ((CaptureStderr true { writes := ws, panics := false } w).trace
      = [Ev.savedOld, Ev.createdPipe, Ev.redirected, Ev.startedDrain, Ev.ranAction,
         Ev.closedWrite, Ev.waitedDrain, Ev.readBuffer, Ev.restored]
    ∧ (CaptureStderr true { writes := ws, panics := false } w).res
      = CapResult.ok ws.flatten)
    ∧ ((CaptureStdoutAndStderr true true { writes := ws2, panics := false } w).trace
      = [Ev.savedOld, Ev.createdPipe, Ev.createdPipe, Ev.redirected,
         Ev.startedDrain, Ev.startedDrain, Ev.ranAction, Ev.closedWrite,
         Ev.closedWrite, Ev.waitedDrain, Ev.readBuffer, Ev.restored]
    ∧ (CaptureStdoutAndStderr true true { writes := ws2, panics := false } w).res
      = CapResult2.ok (chunksFor StreamSel.out ws2).flatten
          (chunksFor StreamSel.err ws2).flatten) :=
  ⟨⟨rfl, captureStdout_ok ws w⟩, ⟨rfl, captureStderr_ok ws w⟩,
   ⟨rfl, captureBoth_ok ws2 w⟩⟩

/-- C5: `CaptureStdoutAndStderr` returns the pair of the two streams'
contents, collected independently; an action writing only to stdout yields an
empty stderr result, and an action writing only to stderr yields an empty
stdout result. -/
theorem captureBoth_pair_independence (ws : List (StreamSel × List Nat)) (w : World) :
    (CaptureStdoutAndStderr true true { writes := ws, panics := false } w).res
      = CapResult2.ok (chunksFor StreamSel.out ws).flatten
          (chunksFor StreamSel.err ws).flatten
    ∧ ((∀ p ∈ ws, p.1 = StreamSel.out) →
        (CaptureStdoutAndStderr true true { writes := ws, panics := false } w).res
          = CapResult2.ok (chunksFor StreamSel.out ws).flatten [])
    ∧ ((∀ p ∈ ws, p.1 = StreamSel.err) →
        (CaptureStdoutAndStderr true true { writes := ws, panics := false } w).res
          = CapResult2.ok [] (chunksFor StreamSel.err ws).flatten) := by
  refine ⟨captureBoth_ok ws w, fun hall => ?_, fun hall => ?_⟩
  · rw [captureBoth_ok ws w,
      chunksFor_eq_nil StreamSel.err StreamSel.out ws hall (by decide)]
    simp
  · rw [captureBoth_ok ws w,
      chunksFor_eq_nil StreamSel.out StreamSel.err ws hall (by decide)]
    simp

/-- C5 witness: concrete one-write actions, one per direction. -/
theorem captureBoth_pair_independence_witness :
    (CaptureStdoutAndStderr true true
        { writes := [(StreamSel.out, [104])], panics := false }
        { stdoutDest := Dest.original, stderrDest := Dest.original,
          stdoutPipe := [], stderrPipe := [], realOut := [], realErr := [] }).res
      = CapResult2.ok (chunksFor StreamSel.out [(StreamSel.out, [104])]).flatten []
    ∧ (CaptureStdoutAndStderr true true
        { writes := [(StreamSel.err, [7])], panics := false }
        { stdoutDest := Dest.original, stderrDest := Dest.original,
          stdoutPipe := [], stderrPipe := [], realOut := [], realErr := [] }).res
      = CapResult2.ok [] (chunksFor StreamSel.err [(StreamSel.err, [7])]).flatten :=
  ⟨(captureBoth_pair_independence [(StreamSel.out, [104])]
      { stdoutDest := Dest.original, stderrDest := Dest.original,
        stdoutPipe := [], stderrPipe := [], realOut := [], realErr := [] }).2.1
      (by decide),
   (captureBoth_pair_independence [(StreamSel.err, [7])]
      { stdoutDest := Dest.original, stderrDest := Dest.original,
        stdoutPipe := [], stderrPipe := [], realOut := [], realErr := [] }).2.2
      (by decide)⟩

/-- C6: after a capture call completes normally, the process-wide stream
destination variable equals its value from before the call, for all three
capture functions. -/
theorem capture_restores_destination (ws : List (List Nat))
    (ws2 : List (StreamSel × List Nat)) (w : World) :
    (CaptureStdout true { writes := ws, panics := false } w).world.stdoutDest
      = w.stdoutDest
    ∧ (CaptureStderr true { writes := ws, panics := false } w).world.stderrDest
      = w.stderrDest
    ∧ (CaptureStdoutAndStderr true true { writes := ws2, panics := false } w).world.stdoutDest
      = w.stdoutDest
    ∧ (CaptureStdoutAndStderr true true { writes := ws2, panics := false } w).world.stderrDest
      = w.stderrDest :=
  ⟨rfl, rfl, rfl, rfl⟩

/-- C7: when pipe creation fails, every capture call aborts fatally
(`t.Fatal`), leaves the process state untouched (no redirection), and returns
no degraded result (the fatal outcome carries no captured text). -/
theorem capture_pipe_failure_fatal (act : Action) (act2 : Action2) (w : World) :
    ((CaptureStdout false act w).res = CapResult.fatal
      ∧ (CaptureStdout false act w).world = w)
    ∧ ((CaptureStderr false act w).res = CapResult.fatal
      ∧ (CaptureStderr false act w).world = w)
    ∧ ((CaptureStdoutAndStderr false true act2 w).res = CapResult2.fatal
      ∧ (CaptureStdoutAndStderr false true act2 w).world = w)
    ∧ ((CaptureStdoutAndStderr true false act2 w).res = CapResult2.fatal
      ∧ (CaptureStdoutAndStderr true false act2 w).world = w) :=
  ⟨⟨rfl, rfl⟩, ⟨rfl, rfl⟩, ⟨rfl, rfl⟩, ⟨rfl, rfl⟩⟩

/-- C8: the captor handler appends exactly one record carrying the request's
method, URL path, headers and full body bytes; the request forwarded
downstream carries a body stream with the same bytes as the original; when no
downstream handler is supplied the request is still recorded. -/
theorem captorHandler_records_and_restores (nextPresent : Bool)
    (reqs : List RequestRecord) (r : Request) :
    (captorServeHTTP nextPresent reqs r).1
      = reqs ++ [{ Method := r.method, Path := r.urlPath, Headers := r.header,
                   Body := r.body.map BodyReader.remaining }]
    ∧ ((captorServeHTTP nextPresent reqs r).2).map (fun q => q.body.map BodyReader.remaining)
      = (if nextPresent then some (r.body.map BodyReader.remaining) else none) := by
  cases hb : r.body with
  | none => cases nextPresent <;> simp [captorServeHTTP, hb]
  | some br => cases nextPresent <;>
      simp [captorServeHTTP, hb, readAllBody, BodyReader.remaining]

/-- C9: `GetRequests` returns a defensive copy — mutating the returned slice
leaves the captor's stored records unchanged — and after `Reset` the captor
has zero recorded requests. -/
theorem getRequests_defensive_and_reset (h : SliceHeap) (a i : Nat)
    (v : RequestRecord) (ha : a < h.arrays.length) :
    readArr (writeArr (GetRequests h { requests := some a }).1
                      (GetRequests h { requests := some a }).2 i v) a
      = readArr h a
    ∧ (∀ (h2 : SliceHeap) (c : CaptorState), LenCaptorH h2 (ResetCaptor c) = 0) := by
  constructor
  · simp only [GetRequests, allocArr, readSlice, readArr, writeArr]
    rw [List.getD_eq_getElem?_getD, List.getD_eq_getElem?_getD]
    rw [List.getElem?_set_ne (by omega)]
    simp [List.getElem?_append, ha]
  · intro h2 c
    rfl

/-- C9 witness: a one-array heap, mutating slot 0 of the snapshot. -/
theorem getRequests_defensive_and_reset_witness :
    0 < (SliceHeap.mk [[RequestRecord.zero]]).arrays.length
    ∧ readArr (writeArr (GetRequests (SliceHeap.mk [[RequestRecord.zero]])
          { requests := some 0 }).1
          (GetRequests (SliceHeap.mk [[RequestRecord.zero]]) { requests := some 0 }).2
          0 { Method := "POST", Path := "/x", Headers := [], Body := none })
        0 = readArr (SliceHeap.mk [[RequestRecord.zero]]) 0 :=
  ⟨by decide,
   (getRequests_defensive_and_reset (SliceHeap.mk [[RequestRecord.zero]]) 0 0
      { Method := "POST", Path := "/x", Headers := [], Body := none } (by decide)).1⟩

/-- C10: `GetRequest` is a total function: it returns the zero record with
`false` whenever the index is negative or at least the number of records, and
the indexed record with `true` otherwise. -/
theorem getRequest_total_bounds (reqs : List RequestRecord) (idx : Int) :
    (idx < 0 ∨ (reqs.length : Int) ≤ idx →
      GetRequest reqs idx = (RequestRecord.zero, false))
    ∧ ∀ (hn : idx.toNat < reqs.length), 0 ≤ idx →
        GetRequest reqs idx = (reqs.get ⟨idx.toNat, hn⟩, true) := by
  constructor
  · intro hout
    simp [GetRequest, hout]
  · intro hn hnonneg
    have hcond : ¬ (idx < 0 ∨ (reqs.length : Int) ≤ idx) := by
      push_neg
      omega
    simp only [GetRequest, if_neg hcond]
    congr 1
    simp [List.getD_eq_getElem?_getD, List.getElem?_eq_getElem hn]

/-- C10 witness: an out-of-range lookup and an in-range lookup. -/
theorem getRequest_total_bounds_witness :
    GetRequest [] 3 = (RequestRecord.zero, false)
    ∧ GetRequest [RequestRecord.zero] 0 = (RequestRecord.zero, true) :=
  ⟨(getRequest_total_bounds [] 3).1 (Or.inr (by decide)),
   (getRequest_total_bounds [RequestRecord.zero] 0).2 (by decide) (by decide)⟩

end Testutils
